import Mathlib

/-!
Verification of the `snowflake` Go package (snowflake.go).

The embedding models Go's `int64` values as mathematical integers carrying
their 64-bit two's-complement bit pattern explicitly: `uview` is the
`uint64` reinterpretation of an `int64` (a natural number below `2^64`),
`sview` the inverse reinterpretation.  Every Go bitwise operation on
`int64` is modelled by moving to the unsigned view, operating on `Nat`,
and moving back, with wraparound (`% 2^64`) exactly where Go wraps.
-/

namespace snowflake

/-- The `uint64` bit pattern of an `int64` value (two's complement). -/
def uview (i : Int) : Nat := (i % (2 ^ 64 : Int)).toNat

/-- Reinterpret a 64-bit pattern as a signed `int64` value. -/
def sview (n : Nat) : Int :=
  if n % 2 ^ 64 < 2 ^ 63 then ((n % 2 ^ 64 : Nat) : Int)
  else ((n % 2 ^ 64 : Nat) : Int) - 2 ^ 64

/-- Go `a | b` on `int64`. -/
def int64or (a b : Int) : Int := sview (uview a ||| uview b)

/-- Go `a & b` on `int64`. -/
def int64and (a b : Int) : Int := sview (uview a &&& uview b)

/-- Go `a ^ b` (bitwise xor) on `int64`. -/
def int64xor (a b : Int) : Int := sview (uview a ^^^ uview b)

/-- Go `a << k` on `int64` (overflow wraps, two's complement). -/
def int64shl (a : Int) (k : Nat) : Int := sview ((uview a <<< k) % 2 ^ 64)

/-- `const baseEpoch = int64(1611252000000)`. -/
def baseEpoch : Int := 1611252000000

/-- `const baseSeqIdBits = uint8(12)`. -/
def baseSeqIdBits : Nat := 12

/-- `const baseNodeBits = uint8(10)`. -/
def baseNodeBits : Nat := 10

/-- `type Snowflake int64`. -/
abbrev Snowflake := Int

/-- `type NetSnowflake string`. -/
abbrev NetSnowflake := String

/-- `type SemanticSnowflake struct` — four `int64` fields. -/
structure SemanticSnowflake where
  ID : Int
  NodeID : Int
  TypeID : Int
  GlobalTypeID : Int
deriving Repr, DecidableEq

/-- `func (s SemanticSnowflake) GetID() int64 { return s.ID }` -/
def SemanticSnowflake.GetID (s : SemanticSnowflake) : Int := s.ID

/-- `func (s SemanticSnowflake) GetNodeID() int64 { return int64(s.NodeID % 8192) }`
(Go `%` on `int64` truncates toward zero, i.e. `Int.tmod`). -/
def SemanticSnowflake.GetNodeID (s : SemanticSnowflake) : Int := Int.tmod s.NodeID 8192

/-- `func (s SemanticSnowflake) GetTypeID() int64 { return int64(s.TypeID % 1024) }` -/
def SemanticSnowflake.GetTypeID (s : SemanticSnowflake) : Int := Int.tmod s.TypeID 1024

/-- `func NewSemanticSnowflake(flake Snowflake) SemanticSnowflake`: all four
extractions are performed on the `uint64` view of the flake, exactly as in the
source (`id >> 23`, `(id << 41) >> 51`, `id & ((1<<10)-1)`, `id & ((1<<23)-1)`),
and each result is converted back with `int64(...)`. -/
def NewSemanticSnowflake (flake : Snowflake) : SemanticSnowflake :=
  let u : Nat := uview flake
  { ID := sview (u >>> 23)
    NodeID := sview (((u <<< 41) % 2 ^ 64) >>> 51)
    TypeID := sview (u &&& ((1 <<< 10) - 1))
    GlobalTypeID := sview (u &&& ((1 <<< 23) - 1)) }

/-- `func (s *SemanticSnowflake) ToSnowflake() Snowflake`:
`i := s.ID << 23; i |= s.GetNodeID() << 10; i |= s.GetTypeID()`. -/
def SemanticSnowflake.ToSnowflake (s : SemanticSnowflake) : Snowflake :=
  int64or (int64or (int64shl s.ID 23) (int64shl s.GetNodeID 10)) s.GetTypeID

/-- Generator state: the fields of `SnowflakeNode` that evolve or matter to
the computed identifiers.  In `NewSnowflakeNode` the width fields are the
constants `epochBits = 41`, `nodeIdBits = 10`, `seqIdBits = baseSeqIdBits`,
`timeStep = baseNodeBits + baseSeqIdBits`, `nodeStep = baseNodeBits`,
`seqStep = -1 ^ (-1 << baseSeqIdBits)`; those are modelled as the definitions
`timeStep`, `nodeStep`, `seqStep` below.  The `time` field is not initialised
by the constructor, so it starts at Go's zero value `0`. -/
structure SnowflakeNode where
  sequence : Int
  time : Int
  nodeId : Int
deriving Repr, DecidableEq

/-- `seqStep: -1 ^ (-1 << baseSeqIdBits)` (evaluates to `4095`). -/
def seqStep : Int := int64xor (-1) (int64shl (-1) baseSeqIdBits)

/-- `timeStep: baseNodeBits + baseSeqIdBits` (evaluates to `22`). -/
def timeStep : Nat := baseNodeBits + baseSeqIdBits

/-- `nodeStep: baseNodeBits` (evaluates to `10`). -/
def nodeStep : Nat := baseNodeBits

/-- `func NewSnowflakeNode(shardId int) *SnowflakeNode`: `sequence: 0`,
`nodeId: int64(shardId)`; `time` keeps its zero value. -/
def NewSnowflakeNode (shardId : Int) : SnowflakeNode :=
  { sequence := 0, time := 0, nodeId := shardId }

/-- `func (self *SnowflakeNode) Next() Snowflake`.  The clock is modelled by
two parameters: `now0` is the value of `time.Since(self.epoch)` in
milliseconds sampled at the top of the call, and `now1` models the sample
with which the busy-wait loop `for now <= self.time { now = ... }` exits in
the sequence-wrap case (that loop only terminates with a sample strictly
above `self.time`, so runs of the real code satisfy `self.time < now1`
whenever that branch is taken).  The function returns the updated state
paired with the identifier
`now << self.timeStep | self.nodeId << self.nodeStep | seq`. -/
def Next (self : SnowflakeNode) (now0 now1 : Int) : SnowflakeNode × Snowflake :=
  if now0 = self.time then
    let sequence := int64and (self.sequence + 1) seqStep
    let now := if sequence = 0 then now1 else now0
    ({ sequence := sequence, time := now, nodeId := self.nodeId },
      int64or (int64or (int64shl now timeStep) (int64shl self.nodeId nodeStep)) sequence)
  else
    ({ sequence := 0, time := now0, nodeId := self.nodeId },
      int64or (int64or (int64shl now0 timeStep) (int64shl self.nodeId nodeStep)) 0)

/-- Value of a decimal digit character, as used by `strconv.ParseInt`. -/
def digitVal (c : Char) : Nat := c.toNat - 48

/-- Whether `c` is one of the characters `0` through `9`. -/
def isDigitCh (c : Char) : Bool := 48 ≤ c.toNat && c.toNat ≤ 57

/-- One accumulation step of decimal parsing: `a * 10 + digit`. -/
def pstep (a : Nat) (c : Char) : Nat := a * 10 + digitVal c

/-- Model of `strconv.ParseInt(s, 10, 64)`: an optional leading `-` or `+`
sign followed by at least one decimal digit; absolute decimal value must fit
the signed 64-bit range, otherwise Go reports `ErrRange` (modelled `none`,
since every caller in this package only checks `err != nil`). -/
def parseInt64 (s : List Char) : Option Int :=
  match s with
  | [] => none
  | c :: cs =>
    let neg : Bool := c = '-'
    let ds : List Char := if c = '-' ∨ c = '+' then cs else c :: cs
    if ds = [] then none
    else if ds.all isDigitCh then
      let n : Nat := ds.foldl pstep 0
      let v : Int := if neg then -(n : Int) else (n : Int)
      if -(2 ^ 63) ≤ v ∧ v ≤ 2 ^ 63 - 1 then some v else none
    else none

/-- Fuelled digit-emission loop of decimal formatting (most significant digit
first); with fuel larger than `n` it produces the digits of `n` followed by
`acc`. -/
def formatNatAux : Nat → Nat → List Char → List Char
  | 0, _, acc => acc
  | fuel + 1, n, acc =>
    let d : Char := Char.ofNat (n % 10 + 48)
    if n < 10 then d :: acc else formatNatAux fuel (n / 10) (d :: acc)

/-- Decimal digits of `n`, most significant first (`"0"` for zero). -/
def goFormatNat (n : Nat) : List Char := formatNatAux (n + 1) n []

/-- Number of decimal digits emitted for `n` (1 for values below ten). -/
def sigDigits (n : Nat) : Nat :=
  if h : n < 10 then 1 else sigDigits (n / 10) + 1
decreasing_by omega

/-- Model of `strconv.FormatInt(i, 10)`: minus sign for negative values,
then the decimal digits of the magnitude. -/
def goFormatInt (i : Int) : String :=
  if i < 0 then ⟨'-' :: goFormatNat i.natAbs⟩ else ⟨goFormatNat i.toNat⟩

/-- `func FromString(id string) Snowflake`: parse failure yields `-1`. -/
def FromString (id : String) : Snowflake :=
  match parseInt64 id.data with
  | none => (-1 : Int)
  | some i => i

/-- `func NewNetSnowflake(i int64) NetSnowflake`. -/
def NewNetSnowflake (i : Int) : NetSnowflake := goFormatInt i

/-- `func (s *NetSnowflake) Valid() bool`: false on parse error or a
negative parsed value. -/
def NetSnowflake.Valid (s : NetSnowflake) : Bool :=
  match parseInt64 s.data with
  | none => false
  | some i => if i < 0 then false else true

/-- `func (s *NetSnowflake) ToID() int64`: `-1` on parse error. -/
def NetSnowflake.ToID (s : NetSnowflake) : Int :=
  match parseInt64 s.data with
  | none => (-1 : Int)
  | some i => i

/-- `func (s *SemanticSnowflake) ToNetSnowflake() NetSnowflake`. -/
def SemanticSnowflake.ToNetSnowflake (s : SemanticSnowflake) : NetSnowflake :=
  NewNetSnowflake s.ToSnowflake

/-- The dynamic value `json.Unmarshal` hands to the type switch in
`UnmarshalJSON`: one constructor per `case` of the switch, each carrying the
Go value of that case, plus `other` for every decoded value matching no case.
A `float64` is carried as the exact rational number it represents. -/
inductive GoJSONValue where
  | goInt (i : Int)
  | goFloat (q : Rat)
  | goInt64 (i : Int)
  | goString (s : String)
  | other
deriving Repr

/-- Go's `int(v)` conversion of a `float64`, which truncates toward zero
(for values whose truncation fits in `int64`; outside that range Go leaves
the result implementation-defined, and no theorem below relies on it). -/
def goFloatToInt (q : Rat) : Int := Int.tdiv q.num q.den

/-- `func (sf *Snowflake) UnmarshalJSON(b []byte) error`, after
`json.Unmarshal` has produced the dynamic value: the type switch assigns
through `*sf` in the `int`, `float64`, `int64` and successful `string`
cases, returns the parse error in the failing `string` case, and falls
through (receiver untouched, `nil` error) for any other value.  The result
is `.ok` with the new receiver value, or `.error` when an error is
returned. -/
def UnmarshalJSON (old : Int) (v : GoJSONValue) : Except Unit Int :=
  match v with
  | .goInt i => .ok i
  | .goFloat q => .ok (goFloatToInt q)
  | .goInt64 i => .ok i
  | .goString s =>
    match parseInt64 s.data with
    | none => .error ()
    | some i => .ok i
  | .other => .ok old

/-- `func (sf Snowflake) MarshalJSON() ([]byte, error)`:
`"\"" + strconv.FormatInt(int64(sf), 10) + "\""`. -/
def MarshalJSON (sf : Snowflake) : String :=
  "\"" ++ goFormatInt sf ++ "\""

/-- State of the generator of node 1 after `k` calls of `Next` during which
every clock sample returns `0` milliseconds (a constant — in particular
non-decreasing — clock; the busy-wait branch is never reached in the first
4095 calls). -/
def dupState (k : Nat) : SnowflakeNode :=
  Nat.rec (NewSnowflakeNode 1) (fun _ st => (Next st 0 0).1) k

/-- Identifier returned by call number `k + 1` in the run of `dupState`. -/
def dupId (k : Nat) : Snowflake := (Next (dupState k) 0 0).2

/-- Composition formula asserted by the specification for `Next`:
`(now << 22) | (nodeID << 12) | sequence`.  Modelled from the spec: the
source shifts the node ID by `nodeStep = baseNodeBits = 10`, not 12; this
definition exists only to compare the spec's formula against the code. -/
def specClaimCompose (now n s : Int) : Int :=
  int64or (int64or (int64shl now 22) (int64shl n 12)) s

/-! ### Basic facts about the 64-bit views -/

theorem uview_lt (i : Int) : uview i < 2 ^ 64 := by
  unfold uview; omega

theorem uview_coe (n : Nat) (h : n < 2 ^ 64) : uview (n : Int) = n := by
  unfold uview; omega

theorem uview_of_nonneg (i : Int) (h0 : 0 ≤ i) (h : i < 2 ^ 64) :
    uview i = i.toNat := by
  unfold uview; omega

theorem sview_of_lt (n : Nat) (h : n < 2 ^ 63) : sview n = (n : Int) := by
  unfold sview
  rw [if_pos (by omega)]
  omega

theorem uview_sview (n : Nat) (h : n < 2 ^ 64) : uview (sview n) = n := by
  unfold sview uview
  split <;> omega

theorem sview_neg_of_ge (n : Nat) (h1 : 2 ^ 63 ≤ n) (h2 : n < 2 ^ 64) :
    sview n < 0 := by
  unfold sview
  rw [if_neg (by omega)]
  omega

/-! ### Arithmetic characterisation of the decoder -/

/-- `NewSemanticSnowflake` in plain arithmetic on the unsigned view:
object = high 41 bits, node = bits 10–22, type = low 10 bits,
global type = low 23 bits. -/
theorem decode_fields (flake : Snowflake) :
    NewSemanticSnowflake flake =
      { ID := ((uview flake / 2 ^ 23 : Nat) : Int)
        NodeID := ((uview flake / 2 ^ 10 % 2 ^ 13 : Nat) : Int)
        TypeID := ((uview flake % 2 ^ 10 : Nat) : Int)
        GlobalTypeID := ((uview flake % 2 ^ 23 : Nat) : Int) } := by
  have hu : uview flake < 2 ^ 64 := uview_lt flake
  simp only [NewSemanticSnowflake, SemanticSnowflake.mk.injEq]
  refine ⟨?_, ?_, ?_, ?_⟩
  · rw [Nat.shiftRight_eq_div_pow, sview_of_lt _ (by omega)]
  · rw [Nat.shiftLeft_eq, Nat.shiftRight_eq_div_pow,
      show (2 ^ 64 : Nat) = 2 ^ 23 * 2 ^ 41 by norm_num,
      Nat.mul_mod_mul_right, sview_of_lt _ (by omega)]
    congr 1
    omega
  · rw [Nat.one_shiftLeft, Nat.and_pow_two_sub_one_eq_mod,
      sview_of_lt _ (by omega)]
  · rw [Nat.one_shiftLeft, Nat.and_pow_two_sub_one_eq_mod,
      sview_of_lt _ (by omega)]

/-- Go's truncating `%` on two natural-number casts is the `Nat` modulus. -/
theorem tmod_coe (m k : Nat) : Int.tmod (m : Int) (k : Int) = ((m % k : Nat) : Int) :=
  (Int.ofNat_tmod m k).symm

/-- Bitwise or of disjoint fields is addition. -/
theorem lor_eq_add (k a b : Nat) (hb : b < 2 ^ k) :
    (2 ^ k * a) ||| b = 2 ^ k * a + b :=
  (Nat.mul_add_lt_is_or hb a).symm

/-- The unsigned view of a semantically encoded triple with in-range object
ID is the packed sum of its reduced fields. -/
theorem toSnowflake_uview (obj node ty : Nat) (g : Int) (hobj : obj < 2 ^ 41) :
    SemanticSnowflake.ToSnowflake ⟨(obj : Int), (node : Int), (ty : Int), g⟩ =
      sview (obj * 2 ^ 23 + node % 8192 * 2 ^ 10 + ty % 1024) := by
  have hnode : node % 8192 < 8192 := by omega
  have hty : ty % 1024 < 1024 := by omega
  have h1 : int64shl ((obj : Nat) : Int) 23 = sview (obj * 2 ^ 23) := by
    simp only [int64shl]
    rw [uview_coe obj (by omega), Nat.shiftLeft_eq,
      Nat.mod_eq_of_lt (a := obj * 2 ^ 23) (by omega)]
  have h2 : int64shl (((node % 8192 : Nat)) : Int) 10 =
      sview (node % 8192 * 2 ^ 10) := by
    simp only [int64shl]
    rw [uview_coe (node % 8192) (by omega), Nat.shiftLeft_eq,
      Nat.mod_eq_of_lt (a := node % 8192 * 2 ^ 10) (by omega)]
  have h3 : int64or (sview (obj * 2 ^ 23)) (sview (node % 8192 * 2 ^ 10)) =
      sview (obj * 2 ^ 23 + node % 8192 * 2 ^ 10) := by
    simp only [int64or]
    rw [uview_sview (obj * 2 ^ 23) (by omega),
      uview_sview (node % 8192 * 2 ^ 10) (by omega)]
    refine congrArg sview ?_
    rw [show obj * 2 ^ 23 = 2 ^ 23 * obj from by ring]
    exact lor_eq_add 23 obj (node % 8192 * 2 ^ 10) (by omega)
  have h4 : int64or (sview (obj * 2 ^ 23 + node % 8192 * 2 ^ 10))
        (((ty % 1024 : Nat)) : Int) =
      sview (obj * 2 ^ 23 + node % 8192 * 2 ^ 10 + ty % 1024) := by
    simp only [int64or]
    rw [uview_sview (obj * 2 ^ 23 + node % 8192 * 2 ^ 10) (by omega),
      uview_coe (ty % 1024) (by omega)]
    refine congrArg sview ?_
    rw [show obj * 2 ^ 23 + node % 8192 * 2 ^ 10 =
          2 ^ 10 * (2 ^ 13 * obj + node % 8192) from by ring]
    exact lor_eq_add 10 (2 ^ 13 * obj + node % 8192) (ty % 1024) (by omega)
  simp only [SemanticSnowflake.ToSnowflake, SemanticSnowflake.GetNodeID,
    SemanticSnowflake.GetTypeID]
  rw [show ((8192 : Int) = ((8192 : Nat) : Int)) by norm_num,
    show ((1024 : Int) = ((1024 : Nat) : Int)) by norm_num,
    tmod_coe, tmod_coe, h1, h2, h3, h4]

/-- C3: decoding an encoded triple with a 41-bit object ID reproduces the
object ID exactly and the node and type IDs reduced modulo their field
widths; in particular, for `nodeID < 8192` and `typeID < 1024` the whole
triple round-trips exactly. -/
theorem C3_semantic_roundtrip (obj node ty : Nat) (g : Int) (hobj : obj < 2 ^ 41) :
    NewSemanticSnowflake
        (SemanticSnowflake.ToSnowflake ⟨(obj : Int), (node : Int), (ty : Int), g⟩) =
      { ID := (obj : Int)
        NodeID := ((node % 8192 : Nat) : Int)
        TypeID := ((ty % 1024 : Nat) : Int)
        GlobalTypeID := ((node % 8192 * 2 ^ 10 + ty % 1024 : Nat) : Int) } := by
  have hnode : node % 8192 < 8192 := Nat.mod_lt _ (by norm_num)
  have hty : ty % 1024 < 1024 := Nat.mod_lt _ (by norm_num)
  rw [toSnowflake_uview obj node ty g hobj, decode_fields,
    show uview (sview (obj * 2 ^ 23 + node % 8192 * 2 ^ 10 + ty % 1024)) =
        obj * 2 ^ 23 + node % 8192 * 2 ^ 10 + ty % 1024 from
      uview_sview _ (by omega)]
  simp only [SemanticSnowflake.mk.injEq]
  refine ⟨?_, ?_, ?_, ?_⟩ <;> (congr 1; omega)

/-- C3 witness: the concrete triple used by the package's own test. -/
theorem C3_semantic_roundtrip_witness :
    (340524230265 : Nat) < 2 ^ 41 ∧
      NewSemanticSnowflake
          (SemanticSnowflake.ToSnowflake
            ⟨((340524230265 : Nat) : Int), ((50 : Nat) : Int), ((100 : Nat) : Int), 0⟩) =
        { ID := ((340524230265 : Nat) : Int)
          NodeID := ((50 % 8192 : Nat) : Int)
          TypeID := ((100 % 1024 : Nat) : Int)
          GlobalTypeID := ((50 % 8192 * 2 ^ 10 + 100 % 1024 : Nat) : Int) } :=
  ⟨by norm_num, C3_semantic_roundtrip 340524230265 50 100 0 (by norm_num)⟩

/-- C5: the decoder is total and extracts, from the unsigned view of the
64-bit input, `objectID = id >> 23` (all 41 high bits), `nodeID` as the 13
bits at offsets 10–22, `typeID` as the low 10 bits and `globalTypeID` as the
low 23 bits. -/
theorem C5_decode_total (flake : Snowflake) :
    NewSemanticSnowflake flake =
      { ID := ((uview flake / 2 ^ 23 : Nat) : Int)
        NodeID := ((uview flake / 2 ^ 10 % 2 ^ 13 : Nat) : Int)
        TypeID := ((uview flake % 2 ^ 10 : Nat) : Int)
        GlobalTypeID := ((uview flake % 2 ^ 23 : Nat) : Int) } :=
  decode_fields flake

/-- C6: semantic encoding clamps node and type IDs by modulo reduction —
the concrete instance demanded by the spec, and the general reduction law. -/
theorem C6_modulo_clamp :
    (∀ (objA g g' : Int),
        SemanticSnowflake.ToSnowflake ⟨objA, 8192 + 50, 1024 + 100, g⟩ =
          SemanticSnowflake.ToSnowflake ⟨objA, 50, 100, g'⟩)
    ∧ (∀ (objA : Int) (node ty : Nat) (g : Int),
        SemanticSnowflake.ToSnowflake ⟨objA, (node : Int), (ty : Int), g⟩ =
          SemanticSnowflake.ToSnowflake
            ⟨objA, ((node % 8192 : Nat) : Int), ((ty % 1024 : Nat) : Int), g⟩) := by
  constructor
  · intro objA g g'
    simp only [SemanticSnowflake.ToSnowflake, SemanticSnowflake.GetNodeID,
      SemanticSnowflake.GetTypeID]
    rw [show Int.tmod (8192 + 50) 8192 = 50 by decide,
      show Int.tmod (1024 + 100) 1024 = 100 by decide,
      show Int.tmod (50 : Int) 8192 = 50 by decide,
      show Int.tmod (100 : Int) 1024 = 100 by decide]
  · intro objA node ty g
    simp only [SemanticSnowflake.ToSnowflake, SemanticSnowflake.GetNodeID,
      SemanticSnowflake.GetTypeID]
    rw [show ((8192 : Int) = ((8192 : Nat) : Int)) by norm_num,
      show ((1024 : Int) = ((1024 : Nat) : Int)) by norm_num,
      tmod_coe, tmod_coe, tmod_coe, tmod_coe,
      show node % 8192 % 8192 = node % 8192 by omega,
      show ty % 1024 % 1024 = ty % 1024 by omega]

/-! ### The generator -/

theorem seqStep_eq : seqStep = 4095 := by decide

/-- Go's `x & seqStep` masks to the low 12 bits of the unsigned view. -/
theorem int64and_seqStep (x : Int) :
    int64and x seqStep = ((uview x &&& 4095 : Nat) : Int) := by
  rw [seqStep_eq]
  simp only [int64and]
  rw [show uview (4095 : Int) = 4095 from by decide]
  have hle : uview x &&& 4095 ≤ 4095 := Nat.and_le_right
  exact sview_of_lt (uview x &&& 4095) (by omega)

/-- The freshly masked sequence is always within the 12-bit field. -/
theorem newSeq_bounds (x : Int) :
    0 ≤ int64and x seqStep ∧ int64and x seqStep < 2 ^ 12 := by
  rw [int64and_seqStep]
  have hle : uview x &&& 4095 ≤ 4095 := Nat.and_le_right
  constructor
  · exact Int.ofNat_nonneg _
  · omega

/-- The identifier composition used by `Next`, in plain `Nat` bit
arithmetic: for bounded inputs `now << 22 | nodeId << 10 | seq` computed on
`int64` equals the same expression computed without any wraparound. -/
theorem compose_eq (now n s : Int) (hn0 : 0 ≤ now) (hn : now < 2 ^ 41)
    (hd0 : 0 ≤ n) (hd : n < 2 ^ 10) (hs0 : 0 ≤ s) (hs : s < 2 ^ 12) :
    int64or (int64or (int64shl now timeStep) (int64shl n nodeStep)) s =
      (((now.toNat <<< 22) ||| (n.toNat <<< 10) ||| s.toNat : Nat) : Int) := by
  have hN : now.toNat < 2 ^ 41 := by omega
  have hD : n.toNat < 2 ^ 10 := by omega
  have hS : s.toNat < 2 ^ 12 := by omega
  have e1 : int64shl now timeStep = sview (now.toNat * 2 ^ 22) := by
    simp only [int64shl]
    rw [show timeStep = 22 from rfl, uview_of_nonneg now hn0 (by omega),
      Nat.shiftLeft_eq, Nat.mod_eq_of_lt (a := now.toNat * 2 ^ 22) (by omega)]
  have e2 : int64shl n nodeStep = sview (n.toNat * 2 ^ 10) := by
    simp only [int64shl]
    rw [show nodeStep = 10 from rfl, uview_of_nonneg n hd0 (by omega),
      Nat.shiftLeft_eq, Nat.mod_eq_of_lt (a := n.toNat * 2 ^ 10) (by omega)]
  have hor1 : now.toNat * 2 ^ 22 ||| n.toNat * 2 ^ 10 < 2 ^ 63 :=
    Nat.or_lt_two_pow (by omega) (by omega)
  have e3 : int64or (sview (now.toNat * 2 ^ 22)) (sview (n.toNat * 2 ^ 10)) =
      sview (now.toNat * 2 ^ 22 ||| n.toNat * 2 ^ 10) := by
    simp only [int64or]
    rw [uview_sview (now.toNat * 2 ^ 22) (by omega),
      uview_sview (n.toNat * 2 ^ 10) (by omega)]
  have hor2 : (now.toNat * 2 ^ 22 ||| n.toNat * 2 ^ 10) ||| s.toNat < 2 ^ 63 :=
    Nat.or_lt_two_pow hor1 (by omega)
  have e4 : int64or (sview (now.toNat * 2 ^ 22 ||| n.toNat * 2 ^ 10)) s =
      sview ((now.toNat * 2 ^ 22 ||| n.toNat * 2 ^ 10) ||| s.toNat) := by
    simp only [int64or]
    rw [uview_sview (now.toNat * 2 ^ 22 ||| n.toNat * 2 ^ 10) (by omega),
      uview_of_nonneg s hs0 (by omega)]
  rw [e1, e2, e3, e4,
    sview_of_lt ((now.toNat * 2 ^ 22 ||| n.toNat * 2 ^ 10) ||| s.toNat) hor2,
    Nat.shiftLeft_eq, Nat.shiftLeft_eq]

/-- New-millisecond branch of `Next`. -/
theorem Next_new_ms (st : SnowflakeNode) (now0 now1 : Int) (h : ¬ now0 = st.time) :
    Next st now0 now1 =
      ({ sequence := 0, time := now0, nodeId := st.nodeId },
        int64or (int64or (int64shl now0 timeStep) (int64shl st.nodeId nodeStep)) 0) := by
  unfold Next
  rw [if_neg h]

/-- Same-millisecond branch of `Next` without sequence wrap. -/
theorem Next_same_ms (st : SnowflakeNode) (now0 now1 : Int) (h : now0 = st.time)
    (hz : ¬ int64and (st.sequence + 1) seqStep = 0) :
    Next st now0 now1 =
      ({ sequence := int64and (st.sequence + 1) seqStep, time := now0,
          nodeId := st.nodeId },
        int64or (int64or (int64shl now0 timeStep) (int64shl st.nodeId nodeStep))
          (int64and (st.sequence + 1) seqStep)) := by
  unfold Next
  rw [if_pos h]
  simp only
  rw [if_neg hz]

/-- Sequence-wrap branch of `Next`: the identifier is built from the
busy-wait exit sample `now1`. -/
theorem Next_wrap (st : SnowflakeNode) (now0 now1 : Int) (h : now0 = st.time)
    (hz : int64and (st.sequence + 1) seqStep = 0) :
    Next st now0 now1 =
      ({ sequence := int64and (st.sequence + 1) seqStep, time := now1,
          nodeId := st.nodeId },
        int64or (int64or (int64shl now1 timeStep) (int64shl st.nodeId nodeStep))
          (int64and (st.sequence + 1) seqStep)) := by
  unfold Next
  rw [if_pos h]
  simp only
  rw [if_pos hz]

/-- C1 counterexample: with previous time delta 5, node ID 1 and previous
sequence 0, the call observes `now = 5` and chooses sequence `1`, but the
identifier it returns differs from the spec's claimed
`(now << 22) | (nodeID << 12) | sequence`. -/
theorem C1_counterexample :
    (Next ⟨0, 5, 1⟩ 5 5).1.time = 5 ∧ (Next ⟨0, 5, 1⟩ 5 5).1.sequence = 1 ∧
      (Next ⟨0, 5, 1⟩ 5 5).2 ≠ specClaimCompose 5 1 1 := by decide

/-- Compositional form of every `Next` result: the identifier is
`(observed now) << 22 | nodeId << 10 | (chosen sequence)` without any
wraparound, for bounded clock and node values. -/
theorem Next_compose (st : SnowflakeNode) (now0 now1 : Int)
    (h00 : 0 ≤ now0) (h01 : now0 < 2 ^ 41)
    (h10 : 0 ≤ now1) (h11 : now1 < 2 ^ 41)
    (hd0 : 0 ≤ st.nodeId) (hd1 : st.nodeId < 2 ^ 10) :
    (Next st now0 now1).2 =
      ((((Next st now0 now1).1.time.toNat <<< 22) |||
         (st.nodeId.toNat <<< 10) ||| (Next st now0 now1).1.sequence.toNat : Nat) : Int) := by
  by_cases hc : now0 = st.time
  · by_cases hz : int64and (st.sequence + 1) seqStep = 0
    · rw [Next_wrap st now0 now1 hc hz]
      exact compose_eq now1 st.nodeId _ h10 h11 hd0 hd1
        (newSeq_bounds (st.sequence + 1)).1 (newSeq_bounds (st.sequence + 1)).2
    · rw [Next_same_ms st now0 now1 hc hz]
      exact compose_eq now0 st.nodeId _ h00 h01 hd0 hd1
        (newSeq_bounds (st.sequence + 1)).1 (newSeq_bounds (st.sequence + 1)).2
  · rw [Next_new_ms st now0 now1 hc]
    exact compose_eq now0 st.nodeId 0 h00 h01 hd0 hd1 (le_refl 0) (by norm_num)

/-- C1 (amended): every `Next` call returns
`(now << 22) | (nodeID << 10) | sequence`, where `now` is the clock value
the call observes (recorded in the new state's `time`), the node ID is
shifted by 10 — not 12, so it overlaps the top two bits of the 12-bit
sequence field — and the sequence is the chosen 12-bit counter value. -/
theorem C1_next_compose (st : SnowflakeNode) (now0 now1 : Int)
    (h00 : 0 ≤ now0) (h01 : now0 < 2 ^ 41)
    (h10 : 0 ≤ now1) (h11 : now1 < 2 ^ 41)
    (hd0 : 0 ≤ st.nodeId) (hd1 : st.nodeId < 2 ^ 10) :
    (Next st now0 now1).2 =
      ((((Next st now0 now1).1.time.toNat <<< 22) |||
         (st.nodeId.toNat <<< 10) ||| (Next st now0 now1).1.sequence.toNat : Nat) : Int) :=
  Next_compose st now0 now1 h00 h01 h10 h11 hd0 hd1

/-- C1 witness: a concrete call of the amended composition law. -/
theorem C1_next_compose_witness :
    ((0 : Int) ≤ 0 ∧ (0 : Int) < 2 ^ 41 ∧ (0 : Int) ≤ 1 ∧ (1 : Int) < 2 ^ 10) ∧
      (Next ⟨0, 0, 1⟩ 0 0).2 =
        ((((Next ⟨0, 0, 1⟩ 0 0).1.time.toNat <<< 22) |||
           ((SnowflakeNode.mk 0 0 1).nodeId.toNat <<< 10) |||
           (Next ⟨0, 0, 1⟩ 0 0).1.sequence.toNat : Nat) : Int) :=
  ⟨⟨by norm_num, by norm_num, by norm_num, by norm_num⟩,
    C1_next_compose ⟨0, 0, 1⟩ 0 0 (by norm_num) (by norm_num) (by norm_num)
      (by norm_num) (by norm_num) (by norm_num)⟩

/-- C4 counterexample: the object ID `2^40` fits in 41 bits, the node and
type IDs 0 are in range, yet the semantic encoder shifts the object ID to
bits 23–63 and thus sets the sign bit: the resulting identifier is
negative. -/
theorem C4_counterexample :
    SemanticSnowflake.ToSnowflake ⟨(2 ^ 40 : Int), 0, 0, 0⟩ < 0 := by decide

/-- C4 (amended): every identifier from `Next` with in-range clock delta and
node ID is non-negative, and every semantically encoded triple whose object
ID fits in 40 bits — not 41 — with `nodeID < 8192`, `typeID < 1024` is
non-negative; a 41-bit object ID can set the sign bit. -/
theorem C4_nonneg :
    (∀ (st : SnowflakeNode) (now0 now1 : Int),
        0 ≤ now0 → now0 < 2 ^ 41 → 0 ≤ now1 → now1 < 2 ^ 41 →
        0 ≤ st.nodeId → st.nodeId < 2 ^ 10 → 0 ≤ (Next st now0 now1).2)
    ∧ (∀ (obj node ty : Nat) (g : Int), obj < 2 ^ 40 → node < 8192 → ty < 1024 →
        0 ≤ SemanticSnowflake.ToSnowflake ⟨(obj : Int), (node : Int), (ty : Int), g⟩) := by
  constructor
  · intro st now0 now1 h00 h01 h10 h11 hd0 hd1
    rw [Next_compose st now0 now1 h00 h01 h10 h11 hd0 hd1]
    exact Int.ofNat_nonneg _
  · intro obj node ty g hobj hnode hty
    rw [toSnowflake_uview obj node ty g (by omega),
      sview_of_lt (obj * 2 ^ 23 + node % 8192 * 2 ^ 10 + ty % 1024) (by omega)]
    exact Int.ofNat_nonneg _

/-- C4 witness: one concrete generator call and one concrete encoding. -/
theorem C4_nonneg_witness :
    ((0 : Int) ≤ 7 ∧ (7 : Int) < 2 ^ 41 ∧ (0 : Int) ≤ 3 ∧ (3 : Int) < 2 ^ 10 ∧
        (1 : Nat) < 2 ^ 40 ∧ (2 : Nat) < 8192 ∧ (3 : Nat) < 1024) ∧
      0 ≤ (Next ⟨0, 0, 3⟩ 7 7).2 ∧
      0 ≤ SemanticSnowflake.ToSnowflake ⟨((1 : Nat) : Int), ((2 : Nat) : Int), ((3 : Nat) : Int), 0⟩ :=
  ⟨⟨by norm_num, by norm_num, by norm_num, by norm_num, by norm_num, by norm_num,
      by norm_num⟩,
    C4_nonneg.1 ⟨0, 0, 3⟩ 7 7 (by norm_num) (by norm_num) (by norm_num) (by norm_num)
      (by norm_num) (by norm_num),
    C4_nonneg.2 1 2 3 0 (by norm_num) (by norm_num) (by norm_num)⟩

/-- Masking by `seqStep` leaves a value below `4096` unchanged. -/
theorem int64and_seqStep_small (m : Nat) (hm : m < 4096) :
    int64and ((m : Nat) : Int) seqStep = ((m : Nat) : Int) := by
  rw [int64and_seqStep, uview_coe m (by omega)]
  congr 1
  rw [show (4095 : Nat) = 2 ^ 12 - 1 from rfl, Nat.and_pow_two_sub_one_eq_mod]
  omega

/-- Closed form of the constant-clock run: after `k ≤ 4094` calls the
sequence counter is exactly `k` and the recorded time is still `0`. -/
theorem dupState_eq : ∀ k : Nat, k ≤ 4094 → dupState k = ⟨(k : Int), 0, 1⟩ := by
  intro k
  induction k with
  | zero => intro _; rfl
  | succ k ih =>
    intro hk
    have hst : dupState k = ⟨(k : Int), 0, 1⟩ := ih (by omega)
    have hmask : int64and ((k : Int) + 1) seqStep = ((k + 1 : Nat) : Int) := by
      rw [show ((k : Int) + 1) = ((k + 1 : Nat) : Int) from by push_cast; ring]
      exact int64and_seqStep_small (k + 1) (by omega)
    have hz : ¬ int64and ((k : Int) + 1) seqStep = 0 := by
      rw [hmask]; omega
    show (Next (dupState k) 0 0).1 = _
    rw [hst, Next_same_ms ⟨(k : Int), 0, 1⟩ 0 0 rfl hz]
    show SnowflakeNode.mk (int64and ((k : Int) + 1) seqStep) 0 1 = _
    rw [hmask]

/-- Identifier of call `k + 1` in the constant-clock run of node 1: the
composition `0 << 22 | 1 << 10 | (k + 1)` collapses to `1024 ||| (k + 1)`. -/
theorem dupId_eq (k : Nat) (hk : k ≤ 4093) :
    dupId k = ((1024 ||| (k + 1) : Nat) : Int) := by
  unfold dupId
  rw [dupState_eq k (by omega)]
  have hmask : int64and ((k : Int) + 1) seqStep = ((k + 1 : Nat) : Int) := by
    rw [show ((k : Int) + 1) = ((k + 1 : Nat) : Int) from by push_cast; ring]
    exact int64and_seqStep_small (k + 1) (by omega)
  have hz : ¬ int64and ((k : Int) + 1) seqStep = 0 := by
    rw [hmask]; omega
  rw [Next_same_ms ⟨(k : Int), 0, 1⟩ 0 0 rfl hz]
  show int64or (int64or (int64shl 0 timeStep) (int64shl 1 nodeStep))
      (int64and ((k : Int) + 1) seqStep) = _
  rw [hmask, compose_eq 0 1 ((k + 1 : Nat) : Int) (le_refl 0) (by norm_num)
    (by norm_num) (by norm_num) (Int.ofNat_nonneg _) (by exact_mod_cast by omega)]
  rw [show Int.toNat 0 <<< 22 = 0 from rfl, show Int.toNat 1 <<< 10 = 1024 from rfl,
    Nat.zero_or, Int.toNat_ofNat]

/-- C2, bug exhibit: under a constant (hence non-decreasing) clock, node 1,
the first and the 1025th sequential `Next` calls return the same identifier
`1025` (the sequence values 1 and 1025 collide because the node ID is
shifted by only 10 bits into the 12-bit sequence field), and the identifier
of the 1024th call (`1024`) is strictly below that of the 1023rd (`2047`):
the run is neither duplicate-free nor non-decreasing. -/
theorem C2_duplicate_run :
    dupId 0 = 1025 ∧ dupId 1024 = 1025 ∧ dupId 1022 = 2047 ∧ dupId 1023 = 1024 := by
  rw [dupId_eq 0 (by omega), dupId_eq 1024 (by omega), dupId_eq 1022 (by omega),
    dupId_eq 1023 (by omega)]
  exact ⟨by decide, by decide, by decide, by decide⟩

/-! ### Decimal formatting and parsing -/

theorem digitChar_isDigit : ∀ d : Nat, d < 10 → isDigitCh (Char.ofNat (d + 48)) = true := by
  decide

theorem digitChar_val : ∀ d : Nat, d < 10 → digitVal (Char.ofNat (d + 48)) = d := by
  decide

/-- Every character the formatter emits is a decimal digit. -/
theorem formatNatAux_all_digits : ∀ (fuel n : Nat) (acc : List Char),
    acc.all isDigitCh = true → (formatNatAux fuel n acc).all isDigitCh = true := by
  intro fuel
  induction fuel with
  | zero => intro n acc h; exact h
  | succ fuel ih =>
    intro n acc h
    have hd : isDigitCh (Char.ofNat (n % 10 + 48)) = true :=
      digitChar_isDigit (n % 10) (by omega)
    have hcons : ((Char.ofNat (n % 10 + 48)) :: acc).all isDigitCh = true := by
      simp only [List.all_cons, Bool.and_eq_true]
      exact ⟨hd, h⟩
    simp only [formatNatAux]
    split
    · exact hcons
    · exact ih (n / 10) _ hcons

/-- The formatter's output starts with a decimal digit. -/
theorem formatNatAux_head : ∀ (fuel n : Nat) (acc : List Char), n < fuel →
    ∃ c cs, formatNatAux fuel n acc = c :: cs ∧ isDigitCh c = true := by
  intro fuel
  induction fuel with
  | zero => intro n acc h; omega
  | succ fuel ih =>
    intro n acc h
    simp only [formatNatAux]
    split
    · exact ⟨_, acc, rfl, digitChar_isDigit (n % 10) (by omega)⟩
    · exact ih (n / 10) _ (by omega)

/-- Folding the decimal accumulator over the formatter's output recovers
the formatted number. -/
theorem formatNatAux_foldl : ∀ (fuel n : Nat), n < fuel → ∀ (acc : List Char) (a : Nat),
    (formatNatAux fuel n acc).foldl pstep a =
      acc.foldl pstep (a * 10 ^ sigDigits n + n) := by
  intro fuel
  induction fuel with
  | zero => intro n h; omega
  | succ fuel ih =>
    intro n h acc a
    simp only [formatNatAux]
    split
    case isTrue hlt =>
      rw [List.foldl_cons, show sigDigits n = 1 from by rw [sigDigits, dif_pos hlt]]
      simp only [pstep]
      rw [digitChar_val (n % 10) (by omega)]
      congr 1
      omega
    case isFalse hlt =>
      rw [ih (n / 10) (by omega) _ a, List.foldl_cons]
      simp only [pstep]
      rw [digitChar_val (n % 10) (by omega),
        show sigDigits n = sigDigits (n / 10) + 1 from by rw [sigDigits, dif_neg hlt]]
      congr 1
      have hdm : 10 * (n / 10) + n % 10 = n := Nat.div_add_mod n 10
      calc (a * 10 ^ sigDigits (n / 10) + n / 10) * 10 + n % 10
          = a * (10 ^ sigDigits (n / 10) * 10) + (10 * (n / 10) + n % 10) := by ring
        _ = a * 10 ^ (sigDigits (n / 10) + 1) + n := by rw [hdm, pow_succ]

/-- The three facts `parseInt64` needs about the formatter's output. -/
theorem goFormatNat_spec (n : Nat) :
    (∃ c cs, goFormatNat n = c :: cs ∧ isDigitCh c = true) ∧
      (goFormatNat n).all isDigitCh = true ∧
      (goFormatNat n).foldl pstep 0 = n := by
  refine ⟨formatNatAux_head (n + 1) n [] (by omega),
    formatNatAux_all_digits (n + 1) n [] rfl, ?_⟩
  rw [show goFormatNat n = formatNatAux (n + 1) n [] from rfl,
    formatNatAux_foldl (n + 1) n (by omega) [] 0]
  simp [List.foldl]

/-- Parsing the decimal digits of a 63-bit-bounded natural recovers it. -/
theorem parse_goFormatNat (n : Nat) (hn : n < 2 ^ 63) :
    parseInt64 (goFormatNat n) = some ((n : Nat) : Int) := by
  obtain ⟨⟨c, cs, hc, hdig⟩, hall, hfold⟩ := goFormatNat_spec n
  rw [hc] at hall hfold ⊢
  have hm : ¬ c = '-' := by rintro rfl; simp [isDigitCh] at hdig
  have hp : ¬ c = '+' := by rintro rfl; simp [isDigitCh] at hdig
  simp only [parseInt64]
  rw [if_neg (by tauto : ¬ (c = '-' ∨ c = '+'))]
  rw [if_neg (List.cons_ne_nil c cs), if_pos hall, hfold]
  rw [show (decide (c = '-')) = false from by simp [hm]]
  simp only [Bool.false_eq_true, if_false]
  rw [if_pos (by constructor <;> omega)]

/-- Wire round-trip at the string level: formatting any `int64` value and
parsing the result gives the value back. -/
theorem parse_goFormatInt (v : Int) (h0 : -(2 ^ 63) ≤ v) (h1 : v < 2 ^ 63) :
    parseInt64 (goFormatInt v).data = some v := by
  by_cases hv : v < 0
  · obtain ⟨⟨c, cs, hc, hdig⟩, hall, hfold⟩ := goFormatNat_spec v.natAbs
    rw [goFormatInt, if_pos hv]
    show parseInt64 ('-' :: goFormatNat v.natAbs) = some v
    simp only [parseInt64, true_or, if_true, decide_True]
    rw [if_neg (by rw [hc]; exact List.cons_ne_nil c cs), if_pos hall, hfold]
    rw [if_pos (⟨by omega, by omega⟩ :
      -(2 ^ 63 : Int) ≤ -((v.natAbs : Nat) : Int) ∧
        -((v.natAbs : Nat) : Int) ≤ 2 ^ 63 - 1)]
    congr 1
    omega
  · rw [goFormatInt, if_neg hv]
    show parseInt64 (goFormatNat v.toNat) = some v
    rw [parse_goFormatNat v.toNat (by omega)]
    congr 1
    omega

/-- C7: converting a non-negative `int64` to its wire form and parsing it
back — through `ToID` or through `FromString` — returns exactly the value. -/
theorem C7_wire_roundtrip (v : Int) (h0 : 0 ≤ v) (h1 : v < 2 ^ 63) :
    NetSnowflake.ToID (NewNetSnowflake v) = v ∧
      FromString (NewNetSnowflake v) = v := by
  have hp : parseInt64 (goFormatInt v).data = some v :=
    parse_goFormatInt v (by omega) h1
  constructor
  · unfold NetSnowflake.ToID NewNetSnowflake
    rw [hp]
  · unfold FromString NewNetSnowflake
    rw [hp]

/-- C7 witness: the round trip at `12345`. -/
theorem C7_wire_roundtrip_witness :
    (0 : Int) ≤ 12345 ∧ (12345 : Int) < 2 ^ 63 ∧
      (NetSnowflake.ToID (NewNetSnowflake 12345) = 12345 ∧
        FromString (NewNetSnowflake 12345) = 12345) :=
  ⟨by norm_num, by norm_num, C7_wire_roundtrip 12345 (by norm_num) (by norm_num)⟩

/-- C8: `"not-a-number"` parses to the sentinel `-1` through both parsers,
the validity predicate rejects `"-5"` and accepts `"12345"`, and in general
`Valid` holds exactly when the string parses as a non-negative 64-bit
integer. -/
theorem C8_validity :
    FromString "not-a-number" = -1 ∧
      NetSnowflake.ToID "not-a-number" = -1 ∧
      NetSnowflake.Valid "-5" = false ∧
      NetSnowflake.Valid "12345" = true ∧
      ∀ s : NetSnowflake, NetSnowflake.Valid s = true ↔
        ∃ i : Int, parseInt64 s.data = some i ∧ 0 ≤ i := by
  refine ⟨by decide, by decide, by decide, by decide, ?_⟩
  intro s
  unfold NetSnowflake.Valid
  cases hp : parseInt64 s.data with
  | none => simp
  | some i =>
    show (if i < 0 then false else true) = true ↔
      ∃ j : Int, some i = some j ∧ 0 ≤ j
    by_cases hi : i < 0
    · rw [if_pos hi]
      simp only [Bool.false_eq_true, false_iff]
      rintro ⟨j, hj, hj0⟩
      rw [Option.some_inj] at hj
      omega
    · rw [if_neg hi]
      simp only [true_iff]
      exact ⟨i, rfl, by omega⟩

/-- C10: any string that parses as an `int64` — negative ones included — is
returned as parsed, so `FromString "-5" = -5`, and the failure sentinel `-1`
coincides with the result of genuinely parsing `"-1"`. -/
theorem C10_negative_values_pass :
    FromString "-5" = -5 ∧ FromString "-1" = -1 ∧
      FromString "not-a-number" = FromString "-1" ∧
      ∀ (s : String) (i : Int), parseInt64 s.data = some i →
        FromString s = i ∧ NetSnowflake.ToID s = i := by
  refine ⟨by decide, by decide, by decide, ?_⟩
  intro s i hp
  unfold FromString NetSnowflake.ToID
  rw [hp]
  exact ⟨rfl, rfl⟩

/-- C10 witness: the general parse-propagation law applied at `"-5"`. -/
theorem C10_negative_values_pass_witness :
    parseInt64 ("-5" : String).data = some (-5) ∧
      (FromString "-5" = -5 ∧ NetSnowflake.ToID "-5" = -5) :=
  ⟨by decide, C10_negative_values_pass.2.2.2 "-5" (-5) (by decide)⟩

/-! ### The JSON boundary -/

/-- Go's `int(v)` on a non-negative float is the floor. -/
theorem goFloatToInt_floor (q : Rat) (h : 0 ≤ q) : goFloatToInt q = ⌊q⌋ := by
  unfold goFloatToInt
  rw [Rat.floor_def]
  exact Int.tdiv_eq_ediv (Rat.num_nonneg.mpr h) (Int.ofNat_nonneg q.den)

/-- Go's `int(v)` on a negative float is the ceiling: truncation toward
zero. -/
theorem goFloatToInt_ceil (q : Rat) (h : q < 0) : goFloatToInt q = ⌈q⌉ := by
  unfold goFloatToInt
  have hnum : q.num ≤ 0 := by
    have := Rat.num_nonneg (q := q)
    by_contra hc
    have : 0 ≤ q := Rat.num_nonneg.mp (by omega)
    exact absurd h (by exact not_lt.mpr this)
  have h3 : Int.tdiv (-q.num) q.den = ⌊-q⌋ := by
    rw [Rat.floor_def, Rat.num_neg_eq_neg_num, Rat.den_neg_eq_den]
    exact Int.tdiv_eq_ediv (by omega) (Int.ofNat_nonneg q.den)
  have h2 : Int.tdiv (-q.num) q.den = -(Int.tdiv q.num q.den) :=
    Int.neg_tdiv q.num q.den
  have h4 : Int.tdiv q.num q.den = -⌊-q⌋ := by omega
  rw [h4, Int.floor_neg, neg_neg]

/-- C9: `MarshalJSON` emits exactly the quoted decimal form of the value,
and `UnmarshalJSON` maps a quoted decimal string, a dynamic `int`, a dynamic
`int64`, and a `float64` (truncated toward zero: floor for non-negative,
ceiling for negative values) to the corresponding integer receiver value. -/
theorem C9_json_codec (v old : Int) (h0 : -(2 ^ 63) ≤ v) (h1 : v < 2 ^ 63) :
    ((MarshalJSON v).data = '"' :: (goFormatInt v).data ++ ['"'] ∧
        parseInt64 (goFormatInt v).data = some v) ∧
      UnmarshalJSON old (.goString (goFormatInt v)) = .ok v ∧
      UnmarshalJSON old (.goInt v) = .ok v ∧
      UnmarshalJSON old (.goInt64 v) = .ok v ∧
      (∀ q : Rat, 0 ≤ q → UnmarshalJSON old (.goFloat q) = .ok ⌊q⌋) ∧
      (∀ q : Rat, q < 0 → UnmarshalJSON old (.goFloat q) = .ok ⌈q⌉) := by
  have hp : parseInt64 (goFormatInt v).data = some v := parse_goFormatInt v h0 h1
  refine ⟨⟨?_, hp⟩, ?_, rfl, rfl, ?_, ?_⟩
  · show ("\"" ++ goFormatInt v ++ "\"").data = _
    rw [String.data_append, String.data_append]
    rfl
  · show (match parseInt64 (goFormatInt v).data with
        | none => (Except.error () : Except Unit Int)
        | some i => Except.ok i) = Except.ok v
    rw [hp]
  · intro q hq
    show Except.ok (goFloatToInt q) = (Except.ok ⌊q⌋ : Except Unit Int)
    rw [goFloatToInt_floor q hq]
  · intro q hq
    show Except.ok (goFloatToInt q) = (Except.ok ⌈q⌉ : Except Unit Int)
    rw [goFloatToInt_ceil q hq]

/-- C9 witness: the codec at value 3, receiver 0 and float `7/2`. -/
theorem C9_json_codec_witness :
    (-(2 ^ 63) : Int) ≤ 3 ∧ (3 : Int) < 2 ^ 63 ∧
      (((MarshalJSON 3).data = '"' :: (goFormatInt 3).data ++ ['"'] ∧
          parseInt64 (goFormatInt 3).data = some 3) ∧
        UnmarshalJSON 0 (.goString (goFormatInt 3)) = .ok 3 ∧
        UnmarshalJSON 0 (.goInt 3) = .ok 3 ∧
        UnmarshalJSON 0 (.goInt64 3) = .ok 3 ∧
        (∀ q : Rat, 0 ≤ q → UnmarshalJSON 0 (.goFloat q) = .ok ⌊q⌋) ∧
        (∀ q : Rat, q < 0 → UnmarshalJSON 0 (.goFloat q) = .ok ⌈q⌉)) :=
  ⟨by norm_num, by norm_num, C9_json_codec 3 0 (by norm_num) (by norm_num)⟩

end snowflake
